import Mathlib

/-! Formal verification model of `scripts/compare_assets.py`.

The script compares two directory trees by content hash.  A directory tree
is modelled as an association list from relative path (a forward-slash
string) to file content: `gather_files` together with `Path.relative_to`
produces exactly such a finite map.  The SHA-256 digest of `hash_file` is
modelled as an injective function of the file content, so digest
comparison coincides with content comparison. -/

namespace CompareAssets

/-- Classification of one relative path, matching the script's four
status strings. -/
inductive Status
  | identical
  | missing
  | different
  | additional
  deriving DecidableEq

/-- The status string used by the script for each classification. -/
def statusName : Status → String
  | .identical => "identical"
  | .missing => "missing"
  | .different => "different"
  | .additional => "additional"

/-- A directory tree: a finite map from relative path to file content, as
produced by `gather_files` and `Path.relative_to` (lines 30-40). -/
abbrev Tree := List (String × String)

/-- Model of `hash_file` (lines 21-27): the SHA-256 digest, modelled as an
injective digest of the file's full byte content. -/
def hash_file (content : String) : String := content

/-- Model of `dict.get` on a path map: the entry with the given key, if any. -/
def lookup (m : Tree) (k : String) : Option String :=
  (m.find? (fun e => decide (e.1 = k))).map Prod.snd

/-- The four-way classification performed by the loop body of
`compare_assets` (lines 48-59). -/
def statusFor (root_map template_map : Tree) (rel : String) : Status :=
  match lookup root_map rel, lookup template_map rel with
  | some r, some t => if hash_file r = hash_file t then .identical else .different
  | none, some _ => .missing
  | some _, none => .additional
  | none, none => .additional

/-- Strict code-point comparison of two character lists: Python's `str`
less-than, used on the individual path segments. -/
def lexLt : List Char → List Char → Bool
  | [], [] => false
  | [], _ :: _ => true
  | _ :: _, [] => false
  | a :: as, b :: bs => if a < b then true else if b < a then false else lexLt as bs

/-- Prepend a character to the first segment of a segment list. -/
def consSeg (c : Char) : List (List Char) → List (List Char)
  | [] => [[c]]
  | seg :: rest => (c :: seg) :: rest

/-- Split a relative path at the forward-slash separators into its
segments, as `PurePath.parts` decomposes the relative paths produced by
`Path.relative_to`. -/
def splitSlash : List Char → List (List Char)
  | [] => [[]]
  | c :: cs => if c = '/' then [] :: splitSlash cs else consSeg c (splitSlash cs)

/-- Python's list comparison on the parts of two paths: lexicographic over
the segment sequences, equal segments recursed past, unequal segments
decided by code-point order. -/
def partsLe : List (List Char) → List (List Char) → Bool
  | [], _ => true
  | _ :: _, [] => false
  | a :: as, b :: bs => if a = b then partsLe as bs else lexLt a b

/-- The order `sorted` (line 45) applies to the relative `Path` keys:
pathlib compares paths component-wise, part by part, each part by
code-point string order. -/
def pathLe (a b : String) : Prop :=
  partsLe (splitSlash a.data) (splitSlash b.data) = true

instance : DecidableRel pathLe := fun a b => by unfold pathLe; infer_instance

/-- Model of `all_paths = sorted(set(root_map) | set(template_map))`
(line 45): the keys are relative `Path` objects, which `sorted` orders
component-wise per `pathLe`. -/
def all_paths (root_map template_map : Tree) : List String :=
  List.insertionSort pathLe ((root_map.map Prod.fst ++ template_map.map Prod.fst).dedup)

/-- One entry of the `results` list (line 62): a status/path record. -/
structure ResultEntry where
  status : Status
  path : String
  deriving DecidableEq

/-- The `counts` dictionary (line 43), fields in insertion order. -/
structure Counts where
  identical : Nat
  missing : Nat
  different : Nat
  additional : Nat
  deriving DecidableEq

/-- The loop's accumulation `counts[status] += 1` (line 61), expressed as
counting each status in the final results list. -/
def tally (results : List ResultEntry) : Counts :=
  { identical := (results.filter (fun e => decide (e.status = .identical))).length
    missing := (results.filter (fun e => decide (e.status = .missing))).length
    different := (results.filter (fun e => decide (e.status = .different))).length
    additional := (results.filter (fun e => decide (e.status = .additional))).length }

/-- The `results` list built by the loop (lines 47-62). -/
def results_of (root template : Tree) : List ResultEntry :=
  (all_paths root template).map (fun p => ⟨statusFor root template p, p⟩)

/-- The final value of the `counts` dictionary. -/
def counts_of (root template : Tree) : Counts :=
  tally (results_of root template)

/-- Model of `total = sum(counts.values())` (line 64). -/
def total_of (root template : Tree) : Nat :=
  (counts_of root template).identical + (counts_of root template).missing +
    (counts_of root template).different + (counts_of root template).additional

/-- Model of line 65; Python float arithmetic is modelled by exact
rationals. -/
def ratio_of (root template : Tree) : ℚ :=
  if total_of root template = 0 then 100
  else ((counts_of root template).identical : ℚ) / (total_of root template : ℚ) * 100

/-- The dictionary returned by `compare_assets` (lines 67-72). -/
structure Report where
  total : Nat
  counts : Counts
  identical_ratio : ℚ
  results : List ResultEntry
  deriving DecidableEq

/-- Model of `compare_assets` (lines 35-72). -/
def compare_assets (root template : Tree) : Report :=
  ⟨total_of root template, counts_of root template, ratio_of root template,
    results_of root template⟩

/-- Transcription of the four-way status rule of §3 of the specification,
stated on the root and template lookups of one relative path: present in
both with equal hashes gives identical, differing hashes different,
template-only missing, root-only additional. -/
def status_rule_spec (root_entry template_entry : Option String) : Status :=
  match root_entry, template_entry with
  | some r, some t => if hash_file r = hash_file t then .identical else .different
  | none, some _ => .missing
  | some _, none => .additional
  | none, none => .additional

/-! Rendering primitives of the Reporter. -/

/-- The ANSI reset code (line 12). -/
def COLOR_RESET : String := "\x1b[0m"

/-- The ANSI color code per status (lines 13-18): yellow, red, green, cyan. -/
def COLORS : Status → String
  | .identical => "\x1b[33m"
  | .missing => "\x1b[31m"
  | .different => "\x1b[32m"
  | .additional => "\x1b[36m"

/-- The fixed summary order (line 75). -/
def SUMMARY_ORDER : List Status := [.identical, .different, .missing, .additional]

/-- Python `str.ljust`: left-justify, padding on the right with spaces up to
the requested width. -/
def ljust (s : String) (width : Nat) : String :=
  s ++ String.mk (List.replicate (width - s.length) ' ')

/-- The decimal digit characters. -/
def digitChar : Nat → Char
  | 0 => '0' | 1 => '1' | 2 => '2' | 3 => '3' | 4 => '4'
  | 5 => '5' | 6 => '6' | 7 => '7' | 8 => '8' | _ => '9'

/-- Accumulator loop producing the decimal digits of a natural number; the
first argument is fuel, always called with enough of it. -/
def natStrChars : Nat → Nat → List Char → List Char
  | 0, _, acc => acc
  | fuel + 1, n, acc =>
    if n = 0 then acc else natStrChars fuel (n / 10) (digitChar (n % 10) :: acc)

/-- Decimal rendering of a natural number, as Python string formatting
performs it. -/
def natStr (n : Nat) : String :=
  if n = 0 then "0" else String.mk (natStrChars n n [])

/-- Python `str.upper()` character by character. -/
def toUpperStr (s : String) : String := String.mk (s.data.map Char.toUpper)

/-- Decimal rendering of an integer. -/
def intStr (i : Int) : String :=
  if i < 0 then "-" ++ natStr i.natAbs else natStr i.toNat

/-- Python `:.2f` formatting, modelled on exact rationals: round to two
decimal places and print exactly two digits after the point. -/
def fmt2 (q : ℚ) : String :=
  intStr (round (q * 100) / 100) ++ "." ++
    (if round (q * 100) % 100 < 10 then "0" else "") ++
    natStr (round (q * 100) % 100).toNat

/-- Python `str.title()` on the one-word status names (line 99): the first
character uppercased, the rest lowercased. -/
def title (s : String) : String :=
  match s.data with
  | [] => ""
  | c :: cs => String.mk (Char.toUpper c :: cs.map Char.toLower)

/-- Python `"\n".join`. -/
def joinSep (sep : String) : List String → String
  | [] => ""
  | [s] => s
  | s :: rest => s ++ sep ++ joinSep sep rest

/-- Projection `counts[key]`. -/
def countOf (counts : Counts) : Status → Nat
  | .identical => counts.identical
  | .missing => counts.missing
  | .different => counts.different
  | .additional => counts.additional

/-- One result line of the text report (lines 85-90). -/
def entry_line (use_color : Bool) (e : ResultEntry) : String :=
  (if use_color then COLORS e.status else "") ++ "[" ++
    ljust (toUpperStr (statusName e.status)) 9 ++ "] " ++ e.path ++
    (if use_color then COLOR_RESET else "")

/-- One summary line of the text report (lines 94-100). -/
def summary_line (use_color : Bool) (counts : Counts) (total : Nat) (k : Status) : String :=
  (if use_color then COLORS k else "") ++ ljust (title (statusName k)) 9 ++
    (if use_color then COLOR_RESET else "") ++ ": " ++ natStr (countOf counts k) ++
    " files (" ++ fmt2 (if total = 0 then 0 else (countOf counts k : ℚ) / total * 100) ++ "%)"

/-- The `lines` list built by `build_text_report` (lines 81-100). -/
def text_report_lines (report : Report) (use_color : Bool) : List String :=
  ("Compared " ++ natStr report.total ++ " root files; " ++
      natStr report.counts.identical ++ " identical (" ++
      fmt2 report.identical_ratio ++ "%).")
    :: (report.results.map (entry_line use_color) ++ ["", "Summary:"] ++
      SUMMARY_ORDER.map (summary_line use_color report.counts report.total))

/-- Model of `build_text_report` (lines 78-102). -/
def build_text_report (report : Report) (use_color : Bool) : String :=
  joinSep "\n" (text_report_lines report use_color)

/-! The JSON reporter: the structured payload, its decoding, and its
serialized form. -/

/-- A JSON value, for the structured payload of `build_json_report`. -/
inductive JValue
  | jnum (q : ℚ)
  | jstr (s : String)
  | jarr (elems : List JValue)
  | jobj (fields : List (String × JValue))

/-- The status/path object for one result entry (lines 62 and 110). -/
def encode_entry (e : ResultEntry) : JValue :=
  .jobj [("status", .jstr (statusName e.status)), ("path", .jstr e.path)]

/-- The `payload` dictionary of `build_json_report` (lines 106-111), keys in
insertion order. -/
def build_json_payload (report : Report) : JValue :=
  .jobj [("total", .jnum report.total),
    ("identical_ratio", .jnum report.identical_ratio),
    ("counts", .jobj [("identical", .jnum report.counts.identical),
      ("missing", .jnum report.counts.missing),
      ("different", .jnum report.counts.different),
      ("additional", .jnum report.counts.additional)]),
    ("files", .jarr (report.results.map encode_entry))]

/-- Field lookup in a JSON object, as a JSON consumer performs it. -/
def jget (v : JValue) (k : String) : Option JValue :=
  match v with
  | .jobj fields => (fields.find? (fun f => decide (f.1 = k))).map Prod.snd
  | _ => none

/-- Read a JSON number as a natural number. -/
def jnat : JValue → Option Nat
  | .jnum q => if q.den = 1 ∧ 0 ≤ q.num then some q.num.toNat else none
  | _ => none

/-- Read a JSON number as a rational. -/
def jrat : JValue → Option ℚ
  | .jnum q => some q
  | _ => none

/-- Read a JSON string. -/
def jstring : JValue → Option String
  | .jstr s => some s
  | _ => none

/-- Inverse of `statusName`. -/
def statusOfName (s : String) : Option Status :=
  if s = "identical" then some .identical
  else if s = "missing" then some .missing
  else if s = "different" then some .different
  else if s = "additional" then some .additional
  else none

/-- Decode one status/path object. -/
def decode_entry (v : JValue) : Option ResultEntry :=
  (jget v "status").bind fun sv =>
    (jstring sv).bind fun s =>
      (statusOfName s).bind fun st =>
        (jget v "path").bind fun pv =>
          (jstring pv).map fun p => ⟨st, p⟩

/-- Decode the elements of the files array in order. -/
def decode_entries : List JValue → Option (List ResultEntry)
  | [] => some []
  | v :: rest =>
    (decode_entry v).bind fun e => (decode_entries rest).map fun es => e :: es

/-- Parse the JSON report document: recover total, identical ratio, the four
counts, and the ordered status/path sequence. -/
def decode_report (v : JValue) : Option (Nat × ℚ × Counts × List ResultEntry) :=
  (jget v "total").bind fun tv =>
  (jnat tv).bind fun total =>
  (jget v "identical_ratio").bind fun rv =>
  (jrat rv).bind fun ratio =>
  (jget v "counts").bind fun cv =>
  (jget cv "identical").bind fun civ =>
  (jnat civ).bind fun ci =>
  (jget cv "missing").bind fun cmv =>
  (jnat cmv).bind fun cm =>
  (jget cv "different").bind fun cdv =>
  (jnat cdv).bind fun cd =>
  (jget cv "additional").bind fun cav =>
  (jnat cav).bind fun ca =>
  (jget v "files").bind fun fv =>
  (match fv with
    | .jarr es => decode_entries es
    | _ => none).map fun files => (total, ratio, ⟨ci, cm, cd, ca⟩, files)

/-- Hexadecimal digit characters for JSON control-character escapes. -/
def hexDigit : Nat → Char
  | 0 => '0' | 1 => '1' | 2 => '2' | 3 => '3' | 4 => '4' | 5 => '5' | 6 => '6'
  | 7 => '7' | 8 => '8' | 9 => '9' | 10 => 'a' | 11 => 'b' | 12 => 'c'
  | 13 => 'd' | 14 => 'e' | _ => 'f'

/-- JSON string escaping as `json.dumps` performs it: quote and backslash
are escaped and control characters are emitted as backslash-u escapes (the
short escapes for common whitespace are modelled by the generic form, which
is immaterial to the properties proved). -/
def escChar (c : Char) : String :=
  if c = '"' then "\\\""
  else if c = '\\' then "\\\\"
  else if c.toNat < 32 then
    "\\u00" ++ String.mk [hexDigit (c.toNat / 16), hexDigit (c.toNat % 16)]
  else String.mk [c]

/-- Escape every character of a JSON string body. -/
def escapeChars : List Char → String
  | [] => ""
  | c :: cs => escChar c ++ escapeChars cs

/-- A JSON string literal with escaping. -/
def json_quote (s : String) : String := "\"" ++ escapeChars s.data ++ "\""

/-- One files element as serialized by `json.dumps` with indent 2. -/
def json_entry_text (e : ResultEntry) : String :=
  "    \x7b\n      \"status\": " ++ json_quote (statusName e.status) ++
    ",\n      \"path\": " ++ json_quote e.path ++ "\n    \x7d"

/-- Decimal rendering of the float ratio inside the JSON document.  Python
prints the shortest float repr; the digits of non-integral values are not
modelled bit-exactly, which is immaterial to the properties proved here. -/
def ratStr (q : ℚ) : String :=
  if q.den = 1 then intStr q.num ++ ".0"
  else intStr q.num ++ "/" ++ natStr q.den

/-- Model of `build_json_report` (lines 105-112): the payload as serialized
by `json.dumps(payload, indent=2)`. -/
def build_json_report (report : Report) : String :=
  "\x7b\n  \"total\": " ++ natStr report.total ++
    ",\n  \"identical_ratio\": " ++ ratStr report.identical_ratio ++
    ",\n  \"counts\": \x7b\n    \"identical\": " ++ natStr report.counts.identical ++
    ",\n    \"missing\": " ++ natStr report.counts.missing ++
    ",\n    \"different\": " ++ natStr report.counts.different ++
    ",\n    \"additional\": " ++ natStr report.counts.additional ++
    "\n  \x7d,\n  \"files\": " ++
    (if report.results.isEmpty then "[]"
      else "[\n" ++ joinSep ",\n" (report.results.map json_entry_text) ++ "\n  ]") ++
    "\n\x7d"

/-! The entry point: argument resolution, validation, and output selection. -/

/-- Output format choice (`--format`, line 131). -/
inductive OutFormat
  | text
  | json
  deriving DecidableEq

/-- Parsed arguments: the positional root and template (carrying their
argparse defaults when omitted) and the optional named overrides
(lines 117-163). -/
structure Args where
  root : String
  template : String
  input_path : Option String
  template_path : Option String
  format : OutFormat
  report_file : Option String

/-- Argparse default for the positional root (line 120):
`Path.cwd() / "assets"`. -/
def default_root (cwd : String) : String := cwd ++ "/assets"

/-- Argparse default for the positional template (line 127). -/
def default_template : String := ".packs/template-1.21.11/assets"

/-- Line 165: `(args.input_path or args.root)`; `--input` takes precedence
over the positional root. -/
def resolved_root (args : Args) : String :=
  match args.input_path with
  | some p => p
  | none => args.root

/-- Line 166: `(args.template_path or args.template)`. -/
def resolved_template (args : Args) : String :=
  match args.template_path with
  | some p => p
  | none => args.template

/-- The filesystem facts `main` consults: whether each resolved directory
exists, and the tree rooted at each. -/
structure FSState where
  root_exists : Bool
  template_exists : Bool
  root_tree : Tree
  template_tree : Tree

/-- Validation and comparison steps of `main` (lines 168-173): `SystemExit`
with a message is modelled as an error result, in which case no report is
ever produced. -/
def run_main (root_path template_path : String) (fs : FSState) : Except String Report :=
  if fs.root_exists = false then
    Except.error ("Root assets folder not found: " ++ root_path)
  else if fs.template_exists = false then
    Except.error ("Template assets folder not found: " ++ template_path)
  else
    Except.ok (compare_assets fs.root_tree fs.template_tree)

/-- Output selection of `main` (lines 175-179): JSON never consults color;
text enables color exactly when no report file is given and stdout is an
interactive terminal. -/
def output_text (format : OutFormat) (report_file : Option String)
    (stdout_isatty : Bool) (report : Report) : String :=
  match format with
  | .json => build_json_report report
  | .text => build_text_report report (report_file.isNone && stdout_isatty)

/-- The ANSI escape character; a string free of it contains no ANSI color
code. -/
def esc : Char := '\x1b'

/-- No ANSI escape character occurs in the string. -/
abbrev noEsc (s : String) : Prop := esc ∉ s.data

/-- Modelled from the spec: the claim's phrase "left-padded to width 9" in
the usual sense of left-padding, namely spaces added on the left of the
status word. -/
def pad_left (s : String) (width : Nat) : String :=
  String.mk (List.replicate (width - s.length) ' ') ++ s

example :
    (compare_assets [("a.txt", "X")] [("a.txt", "X"), ("b.txt", "Y")]).counts =
      ⟨1, 1, 0, 0⟩ := by decide

example :
    (compare_assets [("a.txt", "X")] [("a.txt", "X"), ("b.txt", "Y")]).results =
      [⟨.identical, "a.txt"⟩, ⟨.missing, "b.txt"⟩] := by decide

example :
    (compare_assets [("c.txt", "Z")] []).results = [⟨.additional, "c.txt"⟩] := by decide

example : all_paths [("a.txt", "x")] [("a/b", "y")] = ["a/b", "a.txt"] := by decide

example :
    all_paths [("sounds.json", "x")] [("sounds/ambient/x.ogg", "y")] =
      ["sounds/ambient/x.ogg", "sounds.json"] := by decide

example :
    (compare_assets [("d.txt", "p")] [("d.txt", "q")]).results =
      [⟨.different, "d.txt"⟩] := by decide

example :
    (compare_assets [("a.txt", "X")] [("a.txt", "X"), ("b.txt", "Y")]).identical_ratio =
      50 := by
  show ratio_of [("a.txt", "X")] [("a.txt", "X"), ("b.txt", "Y")] = 50
  rw [ratio_of, show total_of [("a.txt", "X")] [("a.txt", "X"), ("b.txt", "Y")] = 2 by decide,
    show (counts_of [("a.txt", "X")] [("a.txt", "X"), ("b.txt", "Y")]).identical = 1 by decide]
  norm_num

/-! Order theory for the component-wise path order. -/

theorem lexLt_irrefl : ∀ a : List Char, lexLt a a = false
  | [] => rfl
  | a :: as => by simp [lexLt, lt_irrefl, lexLt_irrefl as]

theorem lexLt_asymm : ∀ a b : List Char, lexLt a b = true → lexLt b a = false
  | [], [], h => by simp [lexLt] at h
  | [], _ :: _, _ => rfl
  | _ :: _, [], h => by simp [lexLt] at h
  | a :: as, b :: bs, h => by
    by_cases hab : a < b
    · simp [lexLt, lt_asymm hab, hab]
    · by_cases hba : b < a
      · simp [lexLt, hab, hba] at h
      · have : a = b := le_antisymm (not_lt.mp hba) (not_lt.mp hab)
        subst this
        simp only [lexLt, lt_irrefl, if_false] at h ⊢
        exact lexLt_asymm as bs h

theorem lexLt_trans :
    ∀ a b c : List Char, lexLt a b = true → lexLt b c = true → lexLt a c = true
  | [], [], _, h1, _ => by simp [lexLt] at h1
  | [], _ :: _, [], _, h2 => by simp [lexLt] at h2
  | [], _ :: _, _ :: _, _, _ => rfl
  | _ :: _, [], _, h1, _ => by simp [lexLt] at h1
  | _ :: _, _ :: _, [], _, h2 => by simp [lexLt] at h2
  | a :: as, b :: bs, c :: cs, h1, h2 => by
    by_cases hab : a < b
    · by_cases hbc : b < c
      · simp [lexLt, lt_trans hab hbc]
      · by_cases hcb : c < b
        · simp [lexLt, hbc, hcb] at h2
        · have : b = c := le_antisymm (not_lt.mp hcb) (not_lt.mp hbc)
          subst this
          simp [lexLt, hab]
    · by_cases hba : b < a
      · simp [lexLt, hab, hba] at h1
      · have : a = b := le_antisymm (not_lt.mp hba) (not_lt.mp hab)
        subst this
        simp only [lexLt, lt_irrefl, if_false] at h1
        by_cases hac : a < c
        · simp [lexLt, hac]
        · by_cases hca : c < a
          · simp [lexLt, hac, hca] at h2
          · have : a = c := le_antisymm (not_lt.mp hca) (not_lt.mp hac)
            subst this
            simp only [lexLt, lt_irrefl, if_false] at h2 ⊢
            exact lexLt_trans as bs cs h1 h2

theorem lexLt_trichotomy :
    ∀ a b : List Char, lexLt a b = true ∨ a = b ∨ lexLt b a = true
  | [], [] => Or.inr (Or.inl rfl)
  | [], _ :: _ => Or.inl rfl
  | _ :: _, [] => Or.inr (Or.inr rfl)
  | a :: as, b :: bs => by
    rcases lt_trichotomy a b with h | h | h
    · exact Or.inl (by simp [lexLt, h])
    · subst h
      rcases lexLt_trichotomy as bs with ih | ih | ih
      · exact Or.inl (by simp [lexLt, lt_irrefl, ih])
      · exact Or.inr (Or.inl (by rw [ih]))
      · exact Or.inr (Or.inr (by simp [lexLt, lt_irrefl, ih]))
    · exact Or.inr (Or.inr (by simp [lexLt, h]))

theorem partsLe_total :
    ∀ a b : List (List Char), partsLe a b = true ∨ partsLe b a = true
  | [], _ => Or.inl rfl
  | _ :: _, [] => Or.inr rfl
  | a :: as, b :: bs => by
    by_cases hab : a = b
    · subst hab
      rcases partsLe_total as bs with ih | ih
      · exact Or.inl (by simp [partsLe, ih])
      · exact Or.inr (by simp [partsLe, ih])
    · rcases lexLt_trichotomy a b with h | h | h
      · exact Or.inl (by simp [partsLe, hab, h])
      · exact absurd h hab
      · exact Or.inr (by simp [partsLe, Ne.symm hab, h])

theorem partsLe_trans :
    ∀ a b c : List (List Char),
      partsLe a b = true → partsLe b c = true → partsLe a c = true
  | [], _, _, _, _ => rfl
  | _ :: _, [], _, h1, _ => by simp [partsLe] at h1
  | _ :: _, _ :: _, [], _, h2 => by simp [partsLe] at h2
  | a :: as, b :: bs, c :: cs, h1, h2 => by
    by_cases hab : a = b
    · subst hab
      by_cases hac : a = c
      · subst hac
        simp only [partsLe, if_pos rfl] at h1 h2 ⊢
        exact partsLe_trans as bs cs h1 h2
      · simp only [partsLe, if_neg hac] at h2 ⊢
        exact h2
    · by_cases hbc : b = c
      · subst hbc
        simp only [partsLe, if_neg hab] at h1 ⊢
        exact h1
      · by_cases hac : a = c
        · subst hac
          simp only [partsLe, if_neg hab] at h1
          simp only [partsLe, if_neg hbc] at h2
          rw [lexLt_asymm a b h1] at h2
          exact absurd h2 (by simp)
        · simp only [partsLe, if_neg hab] at h1
          simp only [partsLe, if_neg hbc] at h2
          simp only [partsLe, if_neg hac]
          exact lexLt_trans a b c h1 h2

theorem partsLe_antisymm :
    ∀ a b : List (List Char), partsLe a b = true → partsLe b a = true → a = b
  | [], [], _, _ => rfl
  | [], _ :: _, _, h2 => by simp [partsLe] at h2
  | _ :: _, [], h1, _ => by simp [partsLe] at h1
  | a :: as, b :: bs, h1, h2 => by
    by_cases hab : a = b
    · subst hab
      simp only [partsLe, if_pos rfl] at h1 h2
      rw [partsLe_antisymm as bs h1 h2]
    · simp only [partsLe, if_neg hab] at h1
      simp only [partsLe, if_neg (Ne.symm hab)] at h2
      rw [lexLt_asymm a b h1] at h2
      exact absurd h2 (by simp)

theorem consSeg_ne_nil (c : Char) (l : List (List Char)) : consSeg c l ≠ [] := by
  cases l <;> simp [consSeg]

theorem splitSlash_ne_nil : ∀ l : List Char, splitSlash l ≠ []
  | [] => by simp [splitSlash]
  | c :: cs => by
    rw [splitSlash]
    split
    · simp
    · exact consSeg_ne_nil c _

theorem splitSlash_inj : ∀ l1 l2 : List Char, splitSlash l1 = splitSlash l2 → l1 = l2
  | [], [] => fun _ => rfl
  | [], d :: ds => by
    intro h
    rw [splitSlash, splitSlash] at h
    split at h
    · injection h with h1 h2
      exact absurd h2.symm (splitSlash_ne_nil ds)
    · obtain ⟨s, r, hs⟩ := List.exists_cons_of_ne_nil (splitSlash_ne_nil ds)
      rw [hs] at h
      simp only [consSeg] at h
      injection h with h1 h2
      exact absurd h1.symm (List.cons_ne_nil d s)
  | c :: cs, [] => by
    intro h
    rw [splitSlash, splitSlash] at h
    split at h
    · injection h with h1 h2
      exact absurd h2 (splitSlash_ne_nil cs)
    · obtain ⟨s, r, hs⟩ := List.exists_cons_of_ne_nil (splitSlash_ne_nil cs)
      rw [hs] at h
      simp only [consSeg] at h
      injection h with h1 h2
      exact absurd h1 (List.cons_ne_nil c s)
  | c :: cs, d :: ds => by
    intro h
    rw [splitSlash, splitSlash] at h
    by_cases hc : c = '/'
    · rw [if_pos hc] at h
      by_cases hd : d = '/'
      · rw [if_pos hd] at h
        injection h with h1 h2
        rw [hc, hd, splitSlash_inj cs ds h2]
      · rw [if_neg hd] at h
        obtain ⟨s, r, hs⟩ := List.exists_cons_of_ne_nil (splitSlash_ne_nil ds)
        rw [hs] at h
        simp only [consSeg] at h
        injection h with h1 h2
        exact absurd h1.symm (List.cons_ne_nil d s)
    · rw [if_neg hc] at h
      by_cases hd : d = '/'
      · rw [if_pos hd] at h
        obtain ⟨s, r, hs⟩ := List.exists_cons_of_ne_nil (splitSlash_ne_nil cs)
        rw [hs] at h
        simp only [consSeg] at h
        injection h with h1 h2
        exact absurd h1 (List.cons_ne_nil c s)
      · rw [if_neg hd] at h
        obtain ⟨s1, r1, hs1⟩ := List.exists_cons_of_ne_nil (splitSlash_ne_nil cs)
        obtain ⟨s2, r2, hs2⟩ := List.exists_cons_of_ne_nil (splitSlash_ne_nil ds)
        rw [hs1, hs2] at h
        simp only [consSeg] at h
        injection h with h1 h2
        injection h1 with hcd hseg
        have heq : splitSlash cs = splitSlash ds := by rw [hs1, hs2, hseg, h2]
        rw [hcd, splitSlash_inj cs ds heq]

instance : IsTotal String pathLe :=
  ⟨fun a b => partsLe_total (splitSlash a.data) (splitSlash b.data)⟩

instance : IsTrans String pathLe :=
  ⟨fun a b c h1 h2 =>
    partsLe_trans (splitSlash a.data) (splitSlash b.data) (splitSlash c.data) h1 h2⟩

instance : IsAntisymm String pathLe :=
  ⟨fun a b h1 h2 =>
    String.ext (splitSlash_inj a.data b.data
      (partsLe_antisymm (splitSlash a.data) (splitSlash b.data) h1 h2))⟩

/-! Lookup lemmas for the path maps. -/

theorem lookup_eq_none_iff (m : Tree) (k : String) :
    lookup m k = none ↔ k ∉ m.map Prod.fst := by
  induction m with
  | nil => simp [lookup]
  | cons e t ih =>
    rcases eq_or_ne e.1 k with h | h
    · rw [lookup, List.find?_cons_of_pos _ (by simp [h])]
      simp [h]
    · rw [lookup, List.find?_cons_of_neg _ (by simp [h]), ← lookup, ih]
      simp [Ne.symm h]

theorem mem_of_lookup_eq_some {m : Tree} {k v : String} (h : lookup m k = some v) :
    (k, v) ∈ m := by
  induction m with
  | nil => simp [lookup] at h
  | cons e t ih =>
    rcases eq_or_ne e.1 k with he | he
    · rw [lookup, List.find?_cons_of_pos _ (by simp [he])] at h
      have h2 : e.2 = v := by simpa using h
      exact List.mem_cons.mpr (Or.inl (by rw [← he, ← h2]))
    · rw [lookup, List.find?_cons_of_neg _ (by simp [he]), ← lookup] at h
      exact List.mem_cons.mpr (Or.inr (ih h))

theorem lookup_eq_some_of_mem {m : Tree} {k v : String}
    (hn : (m.map Prod.fst).Nodup) (h : (k, v) ∈ m) : lookup m k = some v := by
  induction m with
  | nil => simp at h
  | cons e t ih =>
    rcases List.mem_cons.mp h with he | ht
    · rw [← he, lookup, List.find?_cons_of_pos _ (by simp)]
      rfl
    · have hk : ¬e.1 = k := by
        intro hek
        have hmem : k ∈ t.map Prod.fst := by
          have := List.mem_map_of_mem Prod.fst ht
          simpa using this
        rw [List.map_cons, List.nodup_cons] at hn
        exact hn.1 (hek ▸ hmem)
      rw [lookup, List.find?_cons_of_neg _ (by simp [hk]), ← lookup]
      rw [List.map_cons, List.nodup_cons] at hn
      exact ih hn.2 ht

theorem lookup_isSome_iff (m : Tree) (k : String) :
    (lookup m k).isSome = true ↔ k ∈ m.map Prod.fst := by
  rw [Option.isSome_iff_ne_none, Ne, lookup_eq_none_iff, not_not]

theorem lookup_congr_perm {m1 m2 : Tree} (hp : m1.Perm m2)
    (hn : (m1.map Prod.fst).Nodup) (k : String) : lookup m1 k = lookup m2 k := by
  cases h : lookup m1 k with
  | none =>
    rw [lookup_eq_none_iff] at h
    rw [eq_comm, lookup_eq_none_iff]
    exact fun hk => h (((hp.map Prod.fst).mem_iff).mpr hk)
  | some v =>
    have hm : (k, v) ∈ m2 := hp.subset (mem_of_lookup_eq_some h)
    have hn2 : (m2.map Prod.fst).Nodup := ((hp.map Prod.fst).nodup_iff).mp hn
    exact (lookup_eq_some_of_mem hn2 hm).symm

/-! Lemmas about the sorted union of paths. -/

theorem mem_all_paths {root template : Tree} {p : String} :
    p ∈ all_paths root template ↔
      p ∈ root.map Prod.fst ∨ p ∈ template.map Prod.fst := by
  rw [all_paths, (List.perm_insertionSort pathLe _).mem_iff, List.mem_dedup,
    List.mem_append]

theorem nodup_all_paths (root template : Tree) : (all_paths root template).Nodup :=
  ((List.perm_insertionSort pathLe _).nodup_iff).mpr (List.nodup_dedup _)

theorem sorted_all_paths (root template : Tree) :
    List.Sorted pathLe (all_paths root template) :=
  List.sorted_insertionSort pathLe _

/-! Counting lemmas. -/

theorem tally_sum (l : List ResultEntry) :
    (tally l).identical + (tally l).missing + (tally l).different +
      (tally l).additional = l.length := by
  induction l with
  | nil => rfl
  | cons e t ih =>
    cases hs : e.status <;>
      simp only [tally, List.filter_cons, hs, decide_eq_true_eq, List.length_cons] at ih ⊢ <;>
      simp <;> omega

theorem statusFor_self {m : Tree} {p : String} (h : p ∈ m.map Prod.fst) :
    statusFor m m p = .identical := by
  have hne : lookup m p ≠ none := by
    intro hn
    rw [lookup_eq_none_iff] at hn
    exact hn h
  rcases ho : lookup m p with _ | v
  · exact absurd ho hne
  · simp [statusFor, ho, hash_file]

/-! Claim theorems (first group). -/

/-- C1: for every pair of root and template trees, the comparison result
contains exactly one entry for each relative path in the union of the two
path sets, the entries are ordered lexicographically by relative path, and
each entry's status follows the four-way rule of §3. -/
theorem c1_union_sorted_rule (root template : Tree) :
    (∀ p : String,
        ((compare_assets root template).results.map ResultEntry.path).count p =
          if p ∈ root.map Prod.fst ∨ p ∈ template.map Prod.fst then 1 else 0) ∧
      List.Sorted pathLe ((compare_assets root template).results.map ResultEntry.path) ∧
      ∀ e ∈ (compare_assets root template).results,
        ((lookup root e.path).isSome = true ∨ (lookup template e.path).isSome = true) ∧
          e.status = status_rule_spec (lookup root e.path) (lookup template e.path) := by
  have hpaths : (compare_assets root template).results.map ResultEntry.path =
      all_paths root template := by
    simp [compare_assets, results_of, List.map_map, Function.comp_def]
  refine ⟨?_, ?_, ?_⟩
  · intro p
    rw [hpaths]
    by_cases hmem : p ∈ root.map Prod.fst ∨ p ∈ template.map Prod.fst
    · rw [if_pos hmem]
      exact List.count_eq_one_of_mem (nodup_all_paths root template)
        (mem_all_paths.mpr hmem)
    · rw [if_neg hmem]
      exact List.count_eq_zero_of_not_mem (fun hc => hmem (mem_all_paths.mp hc))
  · rw [hpaths]; exact sorted_all_paths root template
  · intro e he
    simp only [compare_assets, results_of] at he
    obtain ⟨p, hp, rfl⟩ := List.mem_map.mp he
    constructor
    · rcases mem_all_paths.mp hp with h | h
      · exact Or.inl ((lookup_isSome_iff root p).mpr h)
      · exact Or.inr ((lookup_isSome_iff template p).mpr h)
    · rfl

/-- Witness for C1 at the spec's concrete scenario: root has a.txt only,
template has a.txt with the same content and b.txt. -/
theorem c1_union_sorted_rule_witness :
    ((compare_assets [("a.txt", "X")] [("a.txt", "X"), ("b.txt", "Y")]).results.map
        ResultEntry.path).count "b.txt" = 1 ∧
      (⟨Status.missing, "b.txt"⟩ : ResultEntry).status =
        status_rule_spec (lookup [("a.txt", "X")] "b.txt")
          (lookup [("a.txt", "X"), ("b.txt", "Y")] "b.txt") := by
  constructor
  · have h := (c1_union_sorted_rule [("a.txt", "X")] [("a.txt", "X"), ("b.txt", "Y")]).1 "b.txt"
    rwa [if_pos (Or.inr (by decide))] at h
  · exact ((c1_union_sorted_rule [("a.txt", "X")] [("a.txt", "X"), ("b.txt", "Y")]).2.2
      ⟨Status.missing, "b.txt"⟩ (by decide)).2

/-- C2: the identical ratio is count/total*100 for nonzero total, exactly 100
for zero total (hence for two empty trees), and 100 whenever the two trees
are byte-identical. -/
theorem c2_identical_ratio (root template : Tree) :
    ((compare_assets root template).total ≠ 0 →
        (compare_assets root template).identical_ratio =
          ((compare_assets root template).counts.identical : ℚ) /
            ((compare_assets root template).total : ℚ) * 100) ∧
      ((compare_assets root template).total = 0 →
        (compare_assets root template).identical_ratio = 100) ∧
      (compare_assets [] []).identical_ratio = 100 ∧
      (root = template → (compare_assets root template).identical_ratio = 100) := by
  refine ⟨?_, ?_, ?_, ?_⟩
  · intro h
    simp only [compare_assets] at h ⊢
    rw [ratio_of, if_neg h]
  · intro h
    simp only [compare_assets] at h ⊢
    rw [ratio_of, if_pos h]
  · rfl
  · intro h
    subst h
    simp only [compare_assets]
    have hall : ∀ e ∈ results_of root root, e.status = Status.identical := by
      intro e he
      obtain ⟨p, hp, rfl⟩ := List.mem_map.mp he
      exact statusFor_self ((mem_all_paths.mp hp).elim id id)
    have hident : (counts_of root root).identical = (results_of root root).length := by
      simp only [counts_of, tally]
      rw [List.filter_eq_self.mpr (fun e he => by simp [hall e he])]
    have hmiss : (counts_of root root).missing = 0 := by
      simp only [counts_of, tally]
      rw [List.length_eq_zero]
      exact List.filter_eq_nil_iff.mpr (fun e he => by simp [hall e he])
    have hdiff : (counts_of root root).different = 0 := by
      simp only [counts_of, tally]
      rw [List.length_eq_zero]
      exact List.filter_eq_nil_iff.mpr (fun e he => by simp [hall e he])
    have hadd : (counts_of root root).additional = 0 := by
      simp only [counts_of, tally]
      rw [List.length_eq_zero]
      exact List.filter_eq_nil_iff.mpr (fun e he => by simp [hall e he])
    have htot : total_of root root = (counts_of root root).identical := by
      rw [total_of, hmiss, hdiff, hadd]
      omega
    rw [ratio_of]
    by_cases hz : total_of root root = 0
    · rw [if_pos hz]
    · rw [if_neg hz, ← htot,
        div_self (by exact_mod_cast hz : ((total_of root root : ℚ)) ≠ 0), one_mul]

/-- Witness for C2: two byte-identical non-empty trees have ratio 100, and
the empty comparison also has ratio 100. -/
theorem c2_identical_ratio_witness :
    (compare_assets [("a.txt", "X")] [("a.txt", "X")]).identical_ratio = 100 ∧
      (compare_assets [] []).identical_ratio = 100 := by
  refine ⟨?_, (c2_identical_ratio [] []).2.2.1⟩
  exact (c2_identical_ratio [("a.txt", "X")] [("a.txt", "X")]).2.2.2 rfl

/-- C9: the four per-status counts sum to the reported total, and the total
equals the number of entries in the result sequence. -/
theorem c9_counts_sum (root template : Tree) :
    (compare_assets root template).counts.identical +
          (compare_assets root template).counts.different +
          (compare_assets root template).counts.missing +
          (compare_assets root template).counts.additional =
        (compare_assets root template).total ∧
      (compare_assets root template).total =
        (compare_assets root template).results.length := by
  constructor
  · simp only [compare_assets, total_of]
    omega
  · simp only [compare_assets, total_of, counts_of]
    exact tally_sum _

/-- C7: the comparison is a deterministic function of the trees' paths and
contents: re-walking the same unchanged trees, in any enumeration order,
yields the identical Report. -/
theorem c7_deterministic {r1 r2 t1 t2 : Tree} (hr : r1.Perm r2) (ht : t1.Perm t2)
    (hnr : (r1.map Prod.fst).Nodup) (hnt : (t1.map Prod.fst).Nodup) :
    compare_assets r1 t1 = compare_assets r2 t2 := by
  have hperm : (all_paths r1 t1).Perm (all_paths r2 t2) :=
    (List.perm_insertionSort pathLe _).trans
      ((((hr.map Prod.fst).append (ht.map Prod.fst)).dedup).trans
        (List.perm_insertionSort pathLe _).symm)
  have hap : all_paths r1 t1 = all_paths r2 t2 :=
    List.eq_of_perm_of_sorted hperm (sorted_all_paths _ _) (sorted_all_paths _ _)
  have hst : ∀ p, statusFor r1 t1 p = statusFor r2 t2 p := by
    intro p
    unfold statusFor
    rw [lookup_congr_perm hr hnr p, lookup_congr_perm ht hnt p]
  have hres : results_of r1 t1 = results_of r2 t2 := by
    rw [results_of, results_of, hap]
    exact List.map_congr_left (fun p _ => by rw [hst p])
  have hc : counts_of r1 t1 = counts_of r2 t2 := by rw [counts_of, counts_of, hres]
  have htot : total_of r1 t1 = total_of r2 t2 := by rw [total_of, total_of, hc]
  have hq : ratio_of r1 t1 = ratio_of r2 t2 := by rw [ratio_of, ratio_of, hc, htot]
  rw [compare_assets, compare_assets, hres, hc, htot, hq]

/-- Witness for C7: two enumeration orders of the same two-file tree give the
same report. -/
theorem c7_deterministic_witness :
    compare_assets [("a.txt", "1"), ("b.txt", "2")] [("a.txt", "1")] =
      compare_assets [("b.txt", "2"), ("a.txt", "1")] [("a.txt", "1")] :=
  c7_deterministic (List.Perm.swap _ _ _) (List.Perm.refl _) (by decide) (by decide)

/-! ANSI-escape-freeness lemmas. -/

theorem noEsc_append {a b : String} (ha : noEsc a) (hb : noEsc b) : noEsc (a ++ b) := by
  unfold noEsc at *
  rw [String.data_append]
  intro h
  rcases List.mem_append.mp h with h | h
  · exact ha h
  · exact hb h

theorem noEsc_joinSep (sep : String) (hsep : noEsc sep) :
    ∀ l : List String, (∀ s ∈ l, noEsc s) → noEsc (joinSep sep l)
  | [], _ => by show noEsc ""; decide
  | [s], h => by show noEsc s; exact h s (by simp)
  | s :: s2 :: rest, h => by
    show noEsc (s ++ sep ++ joinSep sep (s2 :: rest))
    exact noEsc_append (noEsc_append (h s (by simp)) hsep)
      (noEsc_joinSep sep hsep (s2 :: rest) (fun x hx => h x (by simp at hx ⊢; tauto)))

theorem digitChar_ne_esc (d : Nat) : digitChar d ≠ esc := by
  match d with
  | 0 | 1 | 2 | 3 | 4 | 5 | 6 | 7 | 8 => decide
  | n + 9 => show ('9' : Char) ≠ esc; decide

theorem hexDigit_ne_esc (d : Nat) : hexDigit d ≠ esc := by
  match d with
  | 0 | 1 | 2 | 3 | 4 | 5 | 6 | 7 | 8 | 9 | 10 | 11 | 12 | 13 | 14 => decide
  | n + 15 => show ('f' : Char) ≠ esc; decide

theorem noEsc_natStrChars :
    ∀ (fuel n : Nat) (acc : List Char), (∀ c ∈ acc, c ≠ esc) →
      ∀ c ∈ natStrChars fuel n acc, c ≠ esc
  | 0, _, _, hacc, c, hc => hacc c hc
  | fuel + 1, n, acc, hacc, c, hc => by
    rw [natStrChars] at hc
    split at hc
    · exact hacc c hc
    · refine noEsc_natStrChars fuel (n / 10) _ ?_ c hc
      intro d hd
      rcases List.mem_cons.mp hd with h | h
      · rw [h]; exact digitChar_ne_esc _
      · exact hacc d h

theorem noEsc_natStr (n : Nat) : noEsc (natStr n) := by
  rw [natStr]
  split
  · decide
  · intro h
    exact noEsc_natStrChars n n [] (by simp) esc h rfl

theorem noEsc_intStr (i : Int) : noEsc (intStr i) := by
  rw [intStr]
  split
  · exact noEsc_append (by decide) (noEsc_natStr _)
  · exact noEsc_natStr _

theorem noEsc_fmt2 (q : ℚ) : noEsc (fmt2 q) := by
  rw [fmt2]
  refine noEsc_append
    (noEsc_append (noEsc_append (noEsc_intStr _) (by decide)) ?_) (noEsc_natStr _)
  split
  · decide
  · decide

theorem noEsc_ratStr (q : ℚ) : noEsc (ratStr q) := by
  rw [ratStr]
  split
  · exact noEsc_append (noEsc_intStr _) (by decide)
  · exact noEsc_append (noEsc_append (noEsc_intStr _) (by decide)) (noEsc_natStr _)

theorem noEsc_entry_line (e : ResultEntry) (hp : noEsc e.path) :
    noEsc (entry_line false e) := by
  have h0 : entry_line false e =
      "" ++ "[" ++ ljust (toUpperStr (statusName e.status)) 9 ++ "] " ++ e.path ++ "" := rfl
  rw [h0]
  refine noEsc_append
    (noEsc_append (noEsc_append (noEsc_append (by decide) ?_) (by decide)) hp) (by decide)
  cases e.status <;> decide

theorem noEsc_summary_line (counts : Counts) (total : Nat) (k : Status) :
    noEsc (summary_line false counts total k) := by
  have h0 : summary_line false counts total k =
      "" ++ ljust (title (statusName k)) 9 ++ "" ++ ": " ++ natStr (countOf counts k) ++
        " files (" ++
        fmt2 (if total = 0 then 0 else (countOf counts k : ℚ) / total * 100) ++ "%)" := rfl
  rw [h0]
  refine noEsc_append
    (noEsc_append
      (noEsc_append
        (noEsc_append
          (noEsc_append (noEsc_append (noEsc_append (by decide) ?_) (by decide)) (by decide))
          (noEsc_natStr _))
        (by decide))
      (noEsc_fmt2 _))
    (by decide)
  cases k <;> decide

theorem noEsc_build_text_report (report : Report)
    (hclean : ∀ e ∈ report.results, noEsc e.path) :
    noEsc (build_text_report report false) := by
  rw [build_text_report]
  refine noEsc_joinSep "\n" (by decide) _ ?_
  intro s hs
  simp only [text_report_lines, List.mem_cons, List.mem_append, List.mem_map,
    List.mem_singleton] at hs
  rcases hs with rfl | hs'
  · exact noEsc_append
      (noEsc_append
        (noEsc_append
          (noEsc_append (noEsc_append (noEsc_append (by decide) (noEsc_natStr _)) (by decide))
            (noEsc_natStr _))
          (by decide))
        (noEsc_fmt2 _))
      (by decide)
  · rcases hs' with (⟨e, he, rfl⟩ | rfl | rfl | hfalse) | ⟨k, hk, rfl⟩
    · exact noEsc_entry_line e (hclean e he)
    · decide
    · decide
    · exact absurd hfalse (List.not_mem_nil _)
    · exact noEsc_summary_line _ _ k

theorem noEsc_escChar (c : Char) : noEsc (escChar c) := by
  rw [escChar]
  split
  · decide
  · split
    · decide
    · split
      · refine noEsc_append (by decide) ?_
        intro h
        rcases List.mem_cons.mp h with h1 | h1
        · exact hexDigit_ne_esc _ h1.symm
        · rcases List.mem_cons.mp h1 with h2 | h2
          · exact hexDigit_ne_esc _ h2.symm
          · exact absurd h2 (List.not_mem_nil _)
      · rename_i h3
        intro h
        rcases List.mem_cons.mp h with h4 | h4
        · exact h3 (h4 ▸ (by decide : esc.toNat < 32))
        · exact absurd h4 (List.not_mem_nil _)

theorem noEsc_escapeChars (l : List Char) : noEsc (escapeChars l) := by
  induction l with
  | nil => intro h; exact absurd h (by decide)
  | cons c cs ih => rw [escapeChars]; exact noEsc_append (noEsc_escChar c) ih

theorem noEsc_json_quote (s : String) : noEsc (json_quote s) :=
  noEsc_append (noEsc_append (by decide) (noEsc_escapeChars _)) (by decide)

theorem noEsc_json_entry_text (e : ResultEntry) : noEsc (json_entry_text e) := by
  rw [json_entry_text]
  exact noEsc_append
    (noEsc_append (noEsc_append (noEsc_append (by decide) (noEsc_json_quote _)) (by decide))
      (noEsc_json_quote _))
    (by decide)

theorem noEsc_build_json_report (report : Report) : noEsc (build_json_report report) := by
  rw [build_json_report]
  refine noEsc_append
    (noEsc_append
      (noEsc_append
        (noEsc_append
          (noEsc_append
            (noEsc_append
              (noEsc_append
                (noEsc_append
                  (noEsc_append
                    (noEsc_append
                      (noEsc_append
                        (noEsc_append
                          (noEsc_append (noEsc_append (by decide) (noEsc_natStr _))
                            (by decide))
                          (noEsc_ratStr _))
                        (by decide))
                      (noEsc_natStr _))
                    (by decide))
                  (noEsc_natStr _))
                (by decide))
              (noEsc_natStr _))
            (by decide))
          (noEsc_natStr _))
        (by decide))
      ?_)
    (by decide)
  split
  · decide
  · refine noEsc_append (noEsc_append (by decide) ?_) (by decide)
    refine noEsc_joinSep ",\n" (by decide) _ ?_
    intro s hs
    obtain ⟨e, _, rfl⟩ := List.mem_map.mp hs
    exact noEsc_json_entry_text e

/-! Claim theorems (second group). -/

/-- C3: when the resolved root or template directory does not exist, the run
terminates with an error whose message names the missing path, no report is
produced, and the comparison is never invoked. -/
theorem c3_missing_dir_error (root_path template_path : String) (fs : FSState)
    (h : fs.root_exists = false ∨ fs.template_exists = false) :
    (∀ report, run_main root_path template_path fs ≠ Except.ok report) ∧
      ((fs.root_exists = false ∧
          run_main root_path template_path fs =
            Except.error ("Root assets folder not found: " ++ root_path)) ∨
        (fs.template_exists = false ∧
          run_main root_path template_path fs =
            Except.error ("Template assets folder not found: " ++ template_path))) := by
  by_cases hr : fs.root_exists = false
  · have he : run_main root_path template_path fs =
        Except.error ("Root assets folder not found: " ++ root_path) := by
      rw [run_main, if_pos hr]
    exact ⟨fun r hc => by rw [he] at hc; exact Except.noConfusion hc, Or.inl ⟨hr, he⟩⟩
  · have ht : fs.template_exists = false := h.resolve_left hr
    have he : run_main root_path template_path fs =
        Except.error ("Template assets folder not found: " ++ template_path) := by
      rw [run_main, if_neg hr, if_pos ht]
    exact ⟨fun r hc => by rw [he] at hc; exact Except.noConfusion hc, Or.inr ⟨ht, he⟩⟩

/-- Witness for C3: with a missing root directory the run errors out naming
the root path. -/
theorem c3_missing_dir_error_witness :
    run_main "r" "t" ⟨false, true, [], []⟩ =
      Except.error "Root assets folder not found: r" := by
  have h := c3_missing_dir_error "r" "t" ⟨false, true, [], []⟩ (Or.inl rfl)
  rcases h.2 with ⟨_, he⟩ | ⟨hf, _⟩
  · exact he
  · exact absurd hf (by decide)

/-- C4: ANSI color codes appear in the output only when the format is text,
no report file is specified, and stdout is an interactive terminal; they
never appear in JSON output nor in output written to a report file.  The
hypothesis states that no path in the tree itself contains the ANSI escape
character. -/
theorem c4_color_only_on_text_tty (format : OutFormat) (report_file : Option String)
    (stdout_isatty : Bool) (report : Report)
    (hclean : ∀ e ∈ report.results, noEsc e.path)
    (h : ¬(format = OutFormat.text ∧ report_file = none ∧ stdout_isatty = true)) :
    noEsc (output_text format report_file stdout_isatty report) := by
  cases format with
  | json => exact noEsc_build_json_report report
  | text =>
    have hcolor : (report_file.isNone && stdout_isatty) = false := by
      cases report_file with
      | none =>
        cases stdout_isatty with
        | true => exact absurd ⟨rfl, rfl, rfl⟩ h
        | false => rfl
      | some _ => rfl
    show noEsc (build_text_report report (report_file.isNone && stdout_isatty))
    rw [hcolor]
    exact noEsc_build_text_report report hclean

/-- Witness for C4: JSON output of a small comparison is free of ANSI escape
codes even on an interactive terminal. -/
theorem c4_color_only_on_text_tty_witness :
    noEsc (output_text OutFormat.json none true (compare_assets [] [("p", "x")])) :=
  c4_color_only_on_text_tty OutFormat.json none true (compare_assets [] [("p", "x")])
    (by decide) (by simp)

/-- C6: the named input and template flags, when supplied, take precedence
over the positional root and template arguments; when absent the positionals
are used, whose argparse defaults are the assets directory under the current
working directory and the fixed template pack path. -/
theorem c6_flag_precedence (args : Args) (p cwd : String) :
    resolved_root { args with input_path := some p } = p ∧
      resolved_root { args with input_path := none } = args.root ∧
      resolved_template { args with template_path := some p } = p ∧
      resolved_template { args with template_path := none } = args.template ∧
      default_root cwd = cwd ++ "/assets" ∧
      default_root "." = "./assets" ∧
      default_template = ".packs/template-1.21.11/assets" :=
  ⟨rfl, rfl, rfl, rfl, rfl, rfl, rfl⟩

/-! Evaluation lemmas for the two-decimal formatting at concrete values. -/

theorem fmt2_zero : fmt2 (0 : ℚ) = "0.00" := by
  rw [fmt2, show ((0 : ℚ) * 100) = ((0 : ℕ) : ℚ) by norm_num, round_natCast]
  decide

theorem fmt2_hundred : fmt2 (100 : ℚ) = "100.00" := by
  rw [fmt2, show ((100 : ℚ) * 100) = ((10000 : ℕ) : ℚ) by norm_num, round_natCast]
  decide

/-! Claim theorems (third group). -/

/-- C5 counterexample: comparing an empty root against a template holding p
produces the result line with MISSING padded on the right to width 9, which
differs from the line the claim's "left-padded to width 9" prescribes. -/
theorem c5_counterexample :
    (text_report_lines (compare_assets [] [("p", "x")]) false).get? 1 =
        some "[MISSING  ] p" ∧
      ¬(text_report_lines (compare_assets [] [("p", "x")]) false).get? 1 =
        some ("[" ++ pad_left (toUpperStr (statusName Status.missing)) 9 ++ "] p") := by
  constructor
  · decide
  · decide

/-- C5 (amended): every text report consists of the header, then one line
per result entry showing the uppercase status left-justified (space-padded
on the right) to width 9 in brackets followed by the path, then a blank
line and a summary block in the fixed order identical, different, missing,
additional, each line showing the title, the count and the percentage; when
color is enabled each status is wrapped in its ANSI color code (yellow for
identical, green for different, red for missing, cyan for additional)
followed by a reset. -/
theorem c5_text_format_amended (report : Report) (use_color : Bool) :
    text_report_lines report use_color =
      ("Compared " ++ natStr report.total ++ " root files; " ++
          natStr report.counts.identical ++ " identical (" ++
          fmt2 report.identical_ratio ++ "%).")
        :: (report.results.map (fun e =>
              (if use_color then
                  match e.status with
                  | Status.identical => "\x1b[33m"
                  | Status.missing => "\x1b[31m"
                  | Status.different => "\x1b[32m"
                  | Status.additional => "\x1b[36m"
                else "") ++ "[" ++
                (match e.status with
                  | Status.identical => "IDENTICAL"
                  | Status.missing => "MISSING  "
                  | Status.different => "DIFFERENT"
                  | Status.additional => "ADDITIONAL") ++ "] " ++ e.path ++
                (if use_color then "\x1b[0m" else "")) ++
          ["", "Summary:"] ++
          [(if use_color then "\x1b[33m" else "") ++ "Identical" ++
              (if use_color then "\x1b[0m" else "") ++ ": " ++
              natStr report.counts.identical ++ " files (" ++
              fmt2 (if report.total = 0 then 0
                else (report.counts.identical : ℚ) / report.total * 100) ++ "%)",
            (if use_color then "\x1b[32m" else "") ++ "Different" ++
              (if use_color then "\x1b[0m" else "") ++ ": " ++
              natStr report.counts.different ++ " files (" ++
              fmt2 (if report.total = 0 then 0
                else (report.counts.different : ℚ) / report.total * 100) ++ "%)",
            (if use_color then "\x1b[31m" else "") ++ "Missing  " ++
              (if use_color then "\x1b[0m" else "") ++ ": " ++
              natStr report.counts.missing ++ " files (" ++
              fmt2 (if report.total = 0 then 0
                else (report.counts.missing : ℚ) / report.total * 100) ++ "%)",
            (if use_color then "\x1b[36m" else "") ++ "Additional" ++
              (if use_color then "\x1b[0m" else "") ++ ": " ++
              natStr report.counts.additional ++ " files (" ++
              fmt2 (if report.total = 0 then 0
                else (report.counts.additional : ℚ) / report.total * 100) ++ "%)"]) := by
  rw [text_report_lines]
  have hmap : List.map (entry_line use_color) report.results =
      List.map (fun e =>
        (if use_color then
            match e.status with
            | Status.identical => "\x1b[33m"
            | Status.missing => "\x1b[31m"
            | Status.different => "\x1b[32m"
            | Status.additional => "\x1b[36m"
          else "") ++ "[" ++
          (match e.status with
            | Status.identical => "IDENTICAL"
            | Status.missing => "MISSING  "
            | Status.different => "DIFFERENT"
            | Status.additional => "ADDITIONAL") ++ "] " ++ e.path ++
          (if use_color then "\x1b[0m" else "")) report.results :=
    List.map_congr_left (fun e _ => by
      obtain ⟨st, p⟩ := e
      cases st <;> rfl)
  rw [hmap]
  rfl

/-- Witness for C5 (amended) at a concrete comparison. -/
theorem c5_text_format_amended_witness :
    text_report_lines (compare_assets [] [("p", "x")]) false =
      ("Compared " ++ natStr 1 ++ " root files; " ++ natStr 0 ++ " identical (" ++
          fmt2 (compare_assets [] [("p", "x")]).identical_ratio ++ "%).")
        :: ("" ++ "[" ++ "MISSING  " ++ "] " ++ "p" ++ "")
        :: ["", "Summary:"] ++
        ["" ++ "Identical" ++ "" ++ ": " ++ natStr 0 ++ " files (" ++
            fmt2 (if (1 : Nat) = 0 then 0 else ((0 : Nat) : ℚ) / (1 : Nat) * 100) ++ "%)",
          "" ++ "Different" ++ "" ++ ": " ++ natStr 0 ++ " files (" ++
            fmt2 (if (1 : Nat) = 0 then 0 else ((0 : Nat) : ℚ) / (1 : Nat) * 100) ++ "%)",
          "" ++ "Missing  " ++ "" ++ ": " ++ natStr 1 ++ " files (" ++
            fmt2 (if (1 : Nat) = 0 then 0 else ((1 : Nat) : ℚ) / (1 : Nat) * 100) ++ "%)",
          "" ++ "Additional" ++ "" ++ ": " ++ natStr 0 ++ " files (" ++
            fmt2 (if (1 : Nat) = 0 then 0 else ((0 : Nat) : ℚ) / (1 : Nat) * 100) ++ "%)"] := by
  exact c5_text_format_amended (compare_assets [] [("p", "x")]) false

/-- C10: with an empty union (total zero) the text report's header states a
percentage of 100.00 while every per-status summary line states 0.00,
because the summary percentage falls back to 0.0 on a zero total while the
identical ratio falls back to 100.0. -/
theorem c10_zero_total_header_vs_summary (root template : Tree)
    (h : (compare_assets root template).total = 0) :
    text_report_lines (compare_assets root template) false =
      ["Compared 0 root files; 0 identical (100.00%).", "", "Summary:",
        "Identical: 0 files (0.00%)", "Different: 0 files (0.00%)",
        "Missing  : 0 files (0.00%)", "Additional: 0 files (0.00%)"] := by
  have h' : total_of root template = 0 := h
  have hsum := tally_sum (results_of root template)
  have h'' : (counts_of root template).identical + (counts_of root template).missing +
      (counts_of root template).different + (counts_of root template).additional = 0 := h'
  have hi : (counts_of root template).identical = 0 := by omega
  have hm : (counts_of root template).missing = 0 := by omega
  have hd : (counts_of root template).different = 0 := by omega
  have ha : (counts_of root template).additional = 0 := by omega
  have hlen : (results_of root template).length = 0 := by
    rw [← hsum]
    exact h''
  have hres : results_of root template = [] := List.length_eq_zero.mp hlen
  have hq : ratio_of root template = 100 := by rw [ratio_of, if_pos h']
  have hcts : counts_of root template = ⟨0, 0, 0, 0⟩ := by
    have heta : counts_of root template =
        ⟨(counts_of root template).identical, (counts_of root template).missing,
          (counts_of root template).different, (counts_of root template).additional⟩ := rfl
    rw [heta, hi, hm, hd, ha]
  have hrep : compare_assets root template = ⟨0, ⟨0, 0, 0, 0⟩, 100, []⟩ := by
    rw [compare_assets, h', hcts, hq, hres]
  rw [hrep]
  have hfinal : text_report_lines ⟨0, ⟨0, 0, 0, 0⟩, 100, []⟩ false =
      ["Compared 0 root files; 0 identical (100.00%).", "", "Summary:",
        "Identical: 0 files (0.00%)", "Different: 0 files (0.00%)",
        "Missing  : 0 files (0.00%)", "Additional: 0 files (0.00%)"] := by
    simp only [text_report_lines, SUMMARY_ORDER, List.map_cons, List.map_nil,
      summary_line, countOf]
    norm_num
    rw [fmt2_zero, fmt2_hundred]
    decide
  exact hfinal

/-- Witness for C10: the empty comparison realizes the zero-total case. -/
theorem c10_zero_total_header_vs_summary_witness :
    text_report_lines (compare_assets [] []) false =
      ["Compared 0 root files; 0 identical (100.00%).", "", "Summary:",
        "Identical: 0 files (0.00%)", "Different: 0 files (0.00%)",
        "Missing  : 0 files (0.00%)", "Additional: 0 files (0.00%)"] :=
  c10_zero_total_header_vs_summary [] [] (by decide)

/-! JSON round-trip lemmas. -/

theorem jnat_natCast (n : Nat) : jnat (JValue.jnum (n : ℚ)) = some n := by
  rw [jnat, if_pos ⟨Rat.den_natCast n, by rw [Rat.num_natCast]; exact Int.natCast_nonneg n⟩,
    Rat.num_natCast, Int.toNat_natCast]

theorem statusOfName_statusName (s : Status) : statusOfName (statusName s) = some s := by
  cases s <;> rfl

theorem decode_encode_entry (e : ResultEntry) : decode_entry (encode_entry e) = some e := by
  obtain ⟨st, p⟩ := e
  cases st <;> rfl

theorem decode_encode_entries (l : List ResultEntry) :
    decode_entries (l.map encode_entry) = some l := by
  induction l with
  | nil => rfl
  | cons e t ih =>
    rw [List.map_cons, decode_entries, decode_encode_entry, Option.some_bind, ih]
    rfl

/-- C8: parsing the JSON payload (fields total, identical ratio, counts, and
files) recovers exactly the report data that the text reporter renders: the
same total, ratio, per-status counts and ordered per-path statuses. -/
theorem c8_json_roundtrip (report : Report) :
    decode_report (build_json_payload report) =
      some (report.total, report.identical_ratio, report.counts, report.results) := by
  obtain ⟨tot, counts, ratio, results⟩ := report
  obtain ⟨ci, cm, cd, ca⟩ := counts
  rw [decode_report]
  simp only [Option.some_bind, Option.map_some, jnat_natCast, jrat, jstring,
    decode_encode_entries,
    show jget (build_json_payload ⟨tot, ⟨ci, cm, cd, ca⟩, ratio, results⟩) "total" =
      some (JValue.jnum (tot : ℚ)) from rfl,
    show jget (build_json_payload ⟨tot, ⟨ci, cm, cd, ca⟩, ratio, results⟩) "identical_ratio" =
      some (JValue.jnum ratio) from rfl,
    show jget (build_json_payload ⟨tot, ⟨ci, cm, cd, ca⟩, ratio, results⟩) "counts" =
      some (JValue.jobj [("identical", JValue.jnum (ci : ℚ)),
        ("missing", JValue.jnum (cm : ℚ)), ("different", JValue.jnum (cd : ℚ)),
        ("additional", JValue.jnum (ca : ℚ))]) from rfl,
    show jget (build_json_payload ⟨tot, ⟨ci, cm, cd, ca⟩, ratio, results⟩) "files" =
      some (JValue.jarr (results.map encode_entry)) from rfl,
    show jget (JValue.jobj [("identical", JValue.jnum (ci : ℚ)),
        ("missing", JValue.jnum (cm : ℚ)), ("different", JValue.jnum (cd : ℚ)),
        ("additional", JValue.jnum (ca : ℚ))]) "identical" =
      some (JValue.jnum (ci : ℚ)) from rfl,
    show jget (JValue.jobj [("identical", JValue.jnum (ci : ℚ)),
        ("missing", JValue.jnum (cm : ℚ)), ("different", JValue.jnum (cd : ℚ)),
        ("additional", JValue.jnum (ca : ℚ))]) "missing" =
      some (JValue.jnum (cm : ℚ)) from rfl,
    show jget (JValue.jobj [("identical", JValue.jnum (ci : ℚ)),
        ("missing", JValue.jnum (cm : ℚ)), ("different", JValue.jnum (cd : ℚ)),
        ("additional", JValue.jnum (ca : ℚ))]) "different" =
      some (JValue.jnum (cd : ℚ)) from rfl,
    show jget (JValue.jobj [("identical", JValue.jnum (ci : ℚ)),
        ("missing", JValue.jnum (cm : ℚ)), ("different", JValue.jnum (cd : ℚ)),
        ("additional", JValue.jnum (ca : ℚ))]) "additional" =
      some (JValue.jnum (ca : ℚ)) from rfl]
  rfl

end CompareAssets
